import Mathlib

/-!
Verification of the question-to-number pipeline of the RLT video-analytics bot.

Python strings are modelled as `List Char`; each definition below is a direct
translation of the corresponding Python function, named after it where Lean
allows.  Machine floats from the Python code are modelled as rationals (the
claims under study concern control flow and truncation, not rounding).
-/

/-- Coerce a Lean string literal to the `List Char` model of a Python string. -/
def pyS (s : String) : List Char := s.data

/-- Python's notion of whitespace for `str.split`, `str.strip` and the regex
class `\s` (restricted to the ASCII range, which is all the repository's data
exercises). -/
def pyWs (c : Char) : Bool :=
  c = ' ' || c = '\t' || c = '\n' || c = '\r' || c = Char.ofNat 11 || c = Char.ofNat 12

/-- Python `str.upper`, modelled character-wise on the Latin and Cyrillic
alphabets (the only alphabets the repository's strings use). -/
def pyUpper (c : Char) : Char :=
  if 'a' ≤ c ∧ c ≤ 'z' then Char.ofNat (c.toNat - 32)
  else if 'а' ≤ c ∧ c ≤ 'я' then Char.ofNat (c.toNat - 32)
  else if c = 'ё' then 'Ё'
  else c

/-- Python `str.lower`, modelled character-wise on the Latin and Cyrillic
alphabets. -/
def pyLower (c : Char) : Char :=
  if 'A' ≤ c ∧ c ≤ 'Z' then Char.ofNat (c.toNat + 32)
  else if 'А' ≤ c ∧ c ≤ 'Я' then Char.ofNat (c.toNat + 32)
  else if c = 'Ё' then 'ё'
  else c

/-- Drop trailing characters satisfying `p` (helper for `str.strip`/`rstrip`). -/
def dropTrail (p : Char → Bool) (l : List Char) : List Char :=
  (l.reverse.dropWhile p).reverse

/-- Python `str.strip()`: remove leading and trailing whitespace. -/
def pyStrip (l : List Char) : List Char :=
  dropTrail pyWs (l.dropWhile pyWs)

/-- Python's substring test `pat in l`. -/
def containsL (pat : List Char) : List Char → Bool
  | [] => pat.isEmpty
  | c :: rest => pat.isPrefixOf (c :: rest) || containsL pat rest

/-- Python `l.find(pat)`: index of the first occurrence of `pat`, as an
`Option` (`none` models the -1 result). -/
def findIdx (pat : List Char) : List Char → Option Nat
  | [] => if pat.isEmpty then some 0 else none
  | c :: rest =>
    if pat.isPrefixOf (c :: rest) then some 0
    else (findIdx pat rest).map (· + 1)

/-- The denylist of `VideoAnalytics._validate_sql` (query_executor.py:101-104). -/
def forbiddenKeywords : List (List Char) :=
  [pyS "DROP", pyS "DELETE", pyS "UPDATE", pyS "INSERT", pyS "ALTER", pyS "CREATE",
   pyS "TRUNCATE", pyS "EXEC", pyS "EXECUTE", pyS "GRANT", pyS "REVOKE"]

/-- `VideoAnalytics._validate_sql` (query_executor.py:88-114): uppercase and
strip the SQL, reject when any denylisted keyword occurs as a substring
(the Python loop returns `False` at the first hit), then allow only
statements starting with `SELECT`. -/
def validate_sql (s : List Char) : Bool :=
  let su := pyStrip (s.map pyUpper)
  if forbiddenKeywords.any (fun k => containsL k su) then false
  else (pyS "SELECT").isPrefixOf su

/-- `' '.join(query.split())` (query_generator.py:182): collapse every
whitespace run to a single space and trim the ends.  `started` records
whether a word has been emitted, `pend` whether whitespace is pending. -/
def collapseGo (started pend : Bool) : List Char → List Char
  | [] => []
  | c :: rest =>
    if pyWs c then collapseGo started true rest
    else (if started && pend then [' ', c] else [c]) ++ collapseGo true false rest

/-- Whitespace collapsing, the first step of `_normalize_query`. -/
def pyCollapse (l : List Char) : List Char := collapseGo false false l

/-- Whether the text contains a digit run followed by whitespace and another
digit, i.e. a position where `re.sub(r'(\d+)\s+(\d+)', ...)` can match. -/
def hasDWD : List Char → Bool
  | [] => false
  | c :: rest =>
    (c.isDigit &&
      (let r1 := rest.dropWhile Char.isDigit
       !(r1.takeWhile pyWs).isEmpty &&
         (match r1.dropWhile pyWs with
          | d :: _ => d.isDigit
          | [] => false))) || hasDWD rest

/-- `re.sub(r'(\d+)\s+(\d+)', r'\1\2', query)` (query_generator.py:186):
left-to-right non-overlapping replacement; after a match the scan resumes
after the second digit group.  Fuelled to stay structurally recursive; the
wrapper passes the list length, which is always sufficient fuel since every
step consumes at least one character. -/
def mergeDigitsF : Nat → List Char → List Char
  | 0, l => l
  | _ + 1, [] => []
  | fuel + 1, c :: rest =>
    if c.isDigit then
      let r1 := rest.dropWhile Char.isDigit
      let r2 := r1.dropWhile pyWs
      if !(r1.takeWhile pyWs).isEmpty &&
          (match r2 with
           | d :: _ => d.isDigit
           | [] => false) then
        (c :: rest.takeWhile Char.isDigit) ++ r2.takeWhile Char.isDigit ++
          mergeDigitsF fuel (r2.dropWhile Char.isDigit)
      else c :: mergeDigitsF fuel rest
    else c :: mergeDigitsF fuel rest

/-- The digit-group merge of `_normalize_query`. -/
def mergeDigits (l : List Char) : List Char := mergeDigitsF l.length l

/-- Python `str.replace(pat, rep)`: replace all non-overlapping occurrences,
scanning left to right (fuelled; the wrapper passes the list length). -/
def replaceAllF (pat rep : List Char) : Nat → List Char → List Char
  | 0, l => l
  | _ + 1, [] => []
  | fuel + 1, c :: rest =>
    if pat.isPrefixOf (c :: rest) then
      rep ++ replaceAllF pat rep fuel (List.drop pat.length (c :: rest))
    else c :: replaceAllF pat rep fuel rest

/-- Python `l.replace(pat, rep)`. -/
def pyReplace (l pat rep : List Char) : List Char := replaceAllF pat rep l.length l

/-- The synonym table of `_normalize_query` (query_generator.py:192-202),
in insertion order. -/
def synTable : List (List Char × List Char) :=
  [(pyS "сколько всего", pyS "сколько"),
   (pyS "какое количество", pyS "сколько"),
   (pyS "какая сумма", pyS "сколько всего"),
   (pyS "суммарно", pyS "всего"),
   (pyS "в сумме", pyS "всего"),
   (pyS "всего вместе", pyS "всего"),
   (pyS "за весь период", pyS "за всё время"),
   (pyS "за все время", pyS "за всё время"),
   (pyS "за всё время", pyS "за всё время")]

/-- The replacement loop of `_normalize_query` (query_generator.py:204-207):
every table entry is tried once, in order; the membership test runs on the
lowercased current text, the replacement itself on the original-case text. -/
def applySyn : List (List Char × List Char) → List Char → List Char
  | [], q => q
  | (old, nw) :: rest, q =>
    if containsL old (q.map pyLower) then applySyn rest (pyReplace q old nw)
    else applySyn rest q

/-- `SQLQueryGenerator._normalize_query` (query_generator.py:171-209). -/
def normalize_query (q : List Char) : List Char :=
  pyStrip (applySyn synTable (mergeDigits (pyCollapse q)))

/-- Python `l[a:b]` for `a ≤ b` (slices used by `generate_sql`). -/
def pySlice (l : List Char) (a b : Nat) : List Char := (l.drop a).take (b - a)

/-- Python `text.split('\n')` (splitting on an exact character, keeping
empty pieces). -/
def splitOnChar (c : Char) : List Char → List (List Char)
  | [] => [[]]
  | x :: r =>
    match splitOnChar c r with
    | [] => if x = c then [[], []] else [[x]]
    | h :: t => if x = c then [] :: h :: t else (x :: h) :: t

/-- Python `' '.join(pieces)`. -/
def joinSpace : List (List Char) → List Char
  | [] => []
  | [l] => l
  | l :: r => l ++ ' ' :: joinSpace r

/-- `re.sub(r'```[a-z]*\n?', '', text)` (query_generator.py:283 and
file_analyzer.py:527): drop every triple backtick together with a trailing
lowercase language tag and one optional newline (fuelled). -/
def stripFenceF : Nat → List Char → List Char
  | 0, l => l
  | _ + 1, [] => []
  | fuel + 1, c :: rest =>
    if (pyS "```").isPrefixOf (c :: rest) then
      let r1 := (rest.drop 2).dropWhile (fun d => 'a' ≤ d && d ≤ 'z')
      stripFenceF fuel (match r1 with
        | '\n' :: r2 => r2
        | other => other)
    else c :: stripFenceF fuel rest

/-- `text.replace("```", "")`. -/
def replTriple (l : List Char) : List Char := pyReplace l (pyS "```") []

/-- The preamble list of `generate_sql` (query_generator.py:291-295), in
order; it includes the words SELECT and select themselves. -/
def sqlPreambles : List (List Char) :=
  [pyS "SQL:", pyS "sql:", pyS "Запрос:", pyS "запрос:", pyS "Ответ:", pyS "ответ:",
   pyS "Вот SQL запрос:", pyS "SQL запрос:", pyS "Запрос SQL:",
   pyS "SELECT", pyS "select"]

/-- The preamble-stripping loop of `generate_sql` (query_generator.py:296-299):
the first matching preamble is removed and the loop breaks. -/
def stripPreambles : List (List Char) → List Char → List Char
  | [], t => t
  | p :: ps, t =>
    if p.isPrefixOf t then pyStrip (t.drop p.length)
    else stripPreambles ps t

/-- The explanatory end markers of `generate_sql` (query_generator.py:315). -/
def endMarkers : List (List Char) :=
  [pyS "\n\n", pyS "Этот запрос", pyS "Запрос", pyS "SQL", pyS "SELECT"]

/-- The end-marker trimming loop of `generate_sql` (query_generator.py:315-322).
The Python comparison `text.find(marker) > len(text) * 0.3` is modelled by the
rational inequality `10 * pos > 3 * len`; no claim under study reaches this
branch. -/
def trimEndMarkers : List (List Char) → List Char → List Char
  | [], t => t
  | m :: ms, t =>
    if containsL m t &&
        (match findIdx m t with
         | some pos => decide (10 * pos > 3 * t.length)
         | none => false) then
      match (findIdx m (t.drop (t.length / 2))).map (· + t.length / 2) with
      | some mp => pyStrip (t.take mp)
      | none => trimEndMarkers ms t
    else trimEndMarkers ms t

/-- The markdown-fence cleanup of `generate_sql` (query_generator.py:272-284). -/
def cleanSqlMarkdown (t : List Char) : List Char :=
  if containsL (pyS "```sql") t then
    match findIdx (pyS "```sql") t with
    | some i =>
      let start := i + 6
      (match (findIdx (pyS "```") (t.drop start)).map (· + start) with
       | some e => pyStrip (pySlice t start e)
       | none => pyStrip (replTriple (pyReplace t (pyS "```sql") [])))
    | none => t
  else if containsL (pyS "```") t then
    pyStrip (replTriple (stripFenceF t.length t))
  else t

/-- The reply post-processing of `SQLQueryGenerator.generate_sql`
(query_generator.py:272-338), from the extracted reply text to the returned
SQL string; `Except.error` models the `raise Exception(msg)` paths inside
the `try` block. -/
def extract_sql_core (t0 : List Char) : Except (List Char) (List Char) := do
  let t1 := cleanSqlMarkdown t0
  let t2 := joinSpace (((splitOnChar '\n' t1).map pyStrip).filter (fun l => !l.isEmpty))
  let t3 := stripPreambles sqlPreambles t2
  let tU := pyStrip (t3.map pyUpper)
  let t4 ←
    if (pyS "SELECT").isPrefixOf tU then pure t3
    else
      match findIdx (pyS "SELECT") tU with
      | some sp =>
        let ts := pyStrip (t3.drop sp)
        (match findIdx (pyS ";") ts with
         | some semi => pure (ts.take (semi + 1))
         | none => pure (trimEndMarkers endMarkers ts))
      | none =>
        Except.error (pyS "Ответ не содержит SQL запрос. Получено: " ++ t3.take 100 ++ pyS "...")
  let t5 := pyStrip (dropTrail (fun c => c = ';') t4)
  if t5.isEmpty || t5.length < 10 then
    Except.error (pyS "Пустой или слишком короткий ответ от GigaChat")
  else if !(pyS "SELECT").isPrefixOf (t5.map pyUpper) then
    Except.error (pyS "Ответ не начинается с SELECT: " ++ t5.take 50)
  else
    pure t5

/-- `generate_sql` wraps every failure in the outer handler
(query_generator.py:340-341), prefixing the error text. -/
def generate_sql_post (t : List Char) : Except (List Char) (List Char) :=
  match extract_sql_core t with
  | Except.ok s => Except.ok s
  | Except.error e => Except.error (pyS "Ошибка при обращении к GigaChat API: " ++ e)

/-- `re.sub(r'\$\$.*?\$\$', '', text, flags=re.DOTALL)` (file_analyzer.py:523):
remove each non-greedy `$$ ... $$` block (fuelled). -/
def stripDollar2F : Nat → List Char → List Char
  | 0, l => l
  | _ + 1, [] => []
  | fuel + 1, c :: rest =>
    if (pyS "$$").isPrefixOf (c :: rest) then
      match findIdx (pyS "$$") (rest.drop 1) with
      | some i => stripDollar2F fuel ((rest.drop 1).drop (i + 2))
      | none => c :: rest
    else c :: stripDollar2F fuel rest

/-- `re.sub(r'\$[^$]*?\$', '', text)` (file_analyzer.py:524): remove each
`$ ... $` pair with no dollar inside (fuelled). -/
def stripDollar1F : Nat → List Char → List Char
  | 0, l => l
  | _ + 1, [] => []
  | fuel + 1, c :: rest =>
    if c = '$' then
      match findIdx (pyS "$") rest with
      | some i => stripDollar1F fuel (rest.drop (i + 1))
      | none => c :: rest
    else c :: stripDollar1F fuel rest

/-- `re.sub(r'\*\*([^*]+)\*\*', r'\1', text)` (file_analyzer.py:531): unwrap
bold markdown; on a failed match the scan advances one character (fuelled). -/
def stripBoldF : Nat → List Char → List Char
  | 0, l => l
  | _ + 1, [] => []
  | fuel + 1, c :: rest =>
    if (pyS "**").isPrefixOf (c :: rest) then
      let inner := (rest.drop 1).takeWhile (fun d => d ≠ '*')
      let r1 := (rest.drop 1).dropWhile (fun d => d ≠ '*')
      if !inner.isEmpty && (pyS "**").isPrefixOf r1 then
        inner ++ stripBoldF fuel (r1.drop 2)
      else c :: stripBoldF fuel rest
    else c :: stripBoldF fuel rest

/-- `re.sub(r'\*([^*]+)\*', r'\1', text)` (file_analyzer.py:532): unwrap
italic markdown (fuelled). -/
def stripItalF : Nat → List Char → List Char
  | 0, l => l
  | _ + 1, [] => []
  | fuel + 1, c :: rest =>
    if c = '*' then
      let inner := rest.takeWhile (fun d => d ≠ '*')
      let r1 := rest.dropWhile (fun d => d ≠ '*')
      if !inner.isEmpty && ('*' :: []).isPrefixOf r1 then
        inner ++ stripItalF fuel (r1.drop 1)
      else c :: stripItalF fuel rest
    else c :: stripItalF fuel rest

/-- The formatting cleanup at the head of `FileAnalyzer._extract_number`
(file_analyzer.py:522-532), in source order. -/
def cleanForExtract (t : List Char) : List Char :=
  let a := stripDollar2F t.length t
  let b := stripDollar1F a.length a
  let c := replTriple (stripFenceF b.length b)
  let d := stripBoldF c.length c
  stripItalF d.length d

/-- `re.findall` of maximal runs of characters satisfying `p`, via an
accumulator of the current run in reverse. -/
def runsAux (p : Char → Bool) (acc : List Char) : List Char → List (List Char)
  | [] => if acc.isEmpty then [] else [acc.reverse]
  | c :: rest =>
    if p c then runsAux p (c :: acc) rest
    else if acc.isEmpty then runsAux p [] rest
    else acc.reverse :: runsAux p [] rest

/-- `re.findall(r'[\d\s]+', text)` and friends: all maximal runs. -/
def runsOf (p : Char → Bool) (l : List Char) : List (List Char) := runsAux p [] l

/-- The sort key of file_analyzer.py:542: `len(re.sub(r'\s', '', x))`. -/
def digitKey (x : List Char) : Nat := (x.filter (fun c => !pyWs c)).length

/-- `max(matches, key=...)`: Python `max` keeps the first maximal element. -/
def maxByKey (m : List Char) (ms : List (List Char)) : List Char :=
  ms.foldl (fun b x => if digitKey x > digitKey b then x else b) m

/-- `re.findall(r'\d+[.,]?\d*', text)[0]` (file_analyzer.py:550-551): the
first decimal-number match, if any. -/
def firstDecimal (t : List Char) : Option (List Char) :=
  match t.dropWhile (fun c => !c.isDigit) with
  | [] => none
  | c :: r =>
    let ds := c :: r.takeWhile Char.isDigit
    match r.dropWhile Char.isDigit with
    | s :: r2 => if s = '.' || s = ',' then some (ds ++ s :: r2.takeWhile Char.isDigit) else some ds
    | [] => some ds

/-- Python `int()` on a (finite) float, modelled on rationals: truncation
toward zero. -/
def pyIntTrunc (q : ℚ) : Int := Int.tdiv q.num (q.den : Int)

/-- The value of Python `float(s)` on the strings this code feeds it:
optional surrounding whitespace, optional sign, digits with an optional
decimal point.  (The full CPython grammar also has exponents and inf/nan;
the claims under study only exercise this fragment.) -/
def pyFloatOfString (s : List Char) : Option ℚ :=
  let t := pyStrip s
  let (sgn, u) : Int × List Char :=
    match t with
    | '-' :: r => (-1, r)
    | '+' :: r => (1, r)
    | r => (1, r)
  let natOf : List Char → Int := fun ds => (ds.foldl (fun a c => 10 * a + (c.toNat - 48)) 0 : Nat)
  let d1 := u.takeWhile Char.isDigit
  let r1 := u.dropWhile Char.isDigit
  match r1 with
  | [] => if d1.isEmpty then none else some (Rat.divInt (sgn * natOf d1) 1)
  | '.' :: r2 =>
    let d2 := r2.takeWhile Char.isDigit
    if !(r2.dropWhile Char.isDigit).isEmpty then none
    else if d1.isEmpty && d2.isEmpty then none
    else some (Rat.divInt (sgn * natOf (d1 ++ d2)) ((10 : Int) ^ d2.length))
  | _ => none

/-- The decimal fallback of `_extract_number` (file_analyzer.py:549-563):
take the first decimal match, turn the comma into a point, drop spaces,
parse, and render the truncated integer; both branches of the final `if`
return `str(int(num))`. -/
def extract_fallback (t : List Char) : List Char :=
  match firstDecimal t with
  | none => pyS "0"
  | some m =>
    let ns := (m.map (fun c => if c = ',' then '.' else c)).filter (fun c => c ≠ ' ')
    match pyFloatOfString ns with
    | some q => (toString (pyIntTrunc q)).data
    | none => pyS "0"

/-- The main body of `_extract_number` (file_analyzer.py:534-566) after the
formatting cleanup: find all `[\d\s]+` runs, keep the one with the most
non-space characters, strip its spaces, and return it when it is a
non-empty digit string; otherwise fall back to the decimal search. -/
def extract_core (t : List Char) : List Char :=
  match runsOf (fun c => c.isDigit || pyWs c) t with
  | [] => extract_fallback t
  | m :: ms =>
    let number := (maxByKey m ms).filter (fun c => !pyWs c)
    if !number.isEmpty && number.all Char.isDigit then number
    else extract_fallback t

/-- `FileAnalyzer._extract_number` (file_analyzer.py:512-566). -/
def extract_number (t : List Char) : List Char := extract_core (cleanForExtract t)

/-- A scalar fetched from the first column of the first row in
`VideoAnalytics._execute_query`.  `pother` models any value of another
Python type (e.g. `decimal.Decimal`, which asyncpg returns for SUM/AVG):
its argument is `some q` when `float(value)` succeeds with value `q`, and
`none` when `float(value)` raises `ValueError`/`TypeError`. -/
inductive PyScalar where
  | pnull : PyScalar
  | pint (n : Int) : PyScalar
  | pfloat (q : ℚ) : PyScalar
  | pstr (s : List Char) : PyScalar
  | pother (conv : Option ℚ) : PyScalar

/-- The scalar coercion of `VideoAnalytics._execute_query`
(query_executor.py:142-159): `None` becomes `0.0`, ints and floats are
passed through `float`, strings are parsed with `float()` falling back to
`0.0`, and any other value is tried with `float()` falling back to `0.0`. -/
def coerce_scalar : PyScalar → ℚ
  | PyScalar.pnull => 0
  | PyScalar.pint n => (n : ℚ)
  | PyScalar.pfloat q => q
  | PyScalar.pstr s =>
    match pyFloatOfString s with
    | some q => q
    | none => 0
  | PyScalar.pother conv =>
    match conv with
    | some q => q
    | none => 0

/-- An argument of `VideoAnalytics._format_number`: `None`, a number
(int or float, as a rational) or a string. -/
inductive FmtVal where
  | fnone : FmtVal
  | fnum (q : ℚ) : FmtVal
  | fstr (s : List Char) : FmtVal

/-- The final rendering of `_format_number` (query_executor.py:190-195):
both branches of the `if` return `str(int(num_value))`. -/
def fmtNum (q : ℚ) : List Char :=
  if q = ((pyIntTrunc q : Int) : ℚ) then (toString (pyIntTrunc q)).data
  else (toString (pyIntTrunc q)).data

/-- `VideoAnalytics._format_number` (query_executor.py:166-195): `None`
becomes "0"; strings lose their spaces and are parsed with `float()`,
returning "0" on failure; the numeric value is truncated to an integer and
rendered in decimal. -/
def format_number : FmtVal → List Char
  | FmtVal.fnone => pyS "0"
  | FmtVal.fstr s =>
    match pyFloatOfString (s.filter (fun c => c ≠ ' ')) with
    | some q => fmtNum q
    | none => pyS "0"
  | FmtVal.fnum q => fmtNum q

/-- A parsed JSON document (the input of `FileAnalyzer._validate_data_structure`;
Python numbers are modelled as rationals, objects as association lists in
key order — `json.load` produces dicts with unique keys). -/
inductive Json where
  | null : Json
  | bool (b : Bool) : Json
  | num (q : ℚ) : Json
  | str (s : List Char) : Json
  | arr (elems : List Json) : Json
  | obj (fields : List (List Char × Json)) : Json

/-- Dictionary lookup (`key in d` / `d.get(key)`). -/
def lookupJ (k : List Char) : List (List Char × Json) → Option Json
  | [] => none
  | (k', v) :: rest => if k' = k then some v else lookupJ k rest

/-- `type(x).__name__` for the values of the model (used in error texts). -/
def typeName : Json → List Char
  | Json.null => pyS "NoneType"
  | Json.bool _ => pyS "bool"
  | Json.num _ => pyS "float"
  | Json.str _ => pyS "str"
  | Json.arr _ => pyS "list"
  | Json.obj _ => pyS "dict"

/-- Python `str()` of a JSON value as interpolated into the mismatch error
message (exact for the scalar cases that the messages under study use). -/
def pyStrOf : Json → List Char
  | Json.null => pyS "None"
  | Json.bool b => if b then pyS "True" else pyS "False"
  | Json.num q => (toString (pyIntTrunc q)).data
  | Json.str s => s
  | Json.arr _ => pyS "[...]"
  | Json.obj _ => pyS "{...}"

/-- Decimal rendering of a 1-based index for the error messages. -/
def nstr (n : Nat) : List Char := (toString n).data

/-- Whether a character is in the class `[0-9a-fA-F]`. -/
def isHexD (c : Char) : Bool :=
  c.isDigit || ('a' ≤ c && c ≤ 'f') || ('A' ≤ c && c ≤ 'F')

/-- Consume exactly `n` hexadecimal digits. -/
def chopHex : Nat → List Char → Option (List Char)
  | 0, l => some l
  | n + 1, c :: l => if isHexD c then chopHex n l else none
  | _ + 1, [] => none

/-- Consume a literal dash. -/
def chopDash : List Char → Option (List Char)
  | '-' :: l => some l
  | _ => none

/-- `re.match` of the anchored UUID pattern of file_analyzer.py:239-241:
8-4-4-4-12 hexadecimal groups.  The final `$` of a Python pattern also
matches just before one trailing newline, which is modelled faithfully. -/
def uuidMatch (s : List Char) : Bool :=
  (do
    let l ← chopHex 8 s
    let l ← chopDash l
    let l ← chopHex 4 l
    let l ← chopDash l
    let l ← chopHex 4 l
    let l ← chopDash l
    let l ← chopHex 4 l
    let l ← chopDash l
    let l ← chopHex 12 l
    if l = [] || l = ['\n'] then some () else none).isSome

/-- Python `snapshot.get('video_id') == video_id` where `video_id` is a
string: equal exactly when the value is the same string. -/
def isStrEq (j : Json) (s : List Char) : Bool :=
  match j with
  | Json.str t => decide (t = s)
  | _ => false

/-- The snapshot loop of `_validate_data_structure` (file_analyzer.py:273-298);
returns the first error message, if any.  `vidIdx`/`sidx` are the 0-based
indices of the enclosing video and of the current snapshot. -/
def validateSnaps (vidIdx : Nat) (vid : List Char) : Nat → List Json → Option (List Char)
  | _, [] => none
  | sidx, s :: rest =>
    match s with
    | Json.obj sf =>
      (match lookupJ (pyS "video_id") sf with
       | none => some (pyS "Снапшот #" ++ nstr (sidx + 1) ++ pyS " видео #" ++ nstr (vidIdx + 1) ++
           pyS " не содержит обязательное поле 'video_id'")
       | some w =>
         if isStrEq w vid then
           if (lookupJ (pyS "created_at") sf).isSome then validateSnaps vidIdx vid (sidx + 1) rest
           else some (pyS "Снапшот #" ++ nstr (sidx + 1) ++ pyS " видео #" ++ nstr (vidIdx + 1) ++
             pyS " не содержит обязательное поле 'created_at'")
         else some (pyS "Снапшот #" ++ nstr (sidx + 1) ++ pyS " видео #" ++ nstr (vidIdx + 1) ++
           pyS " имеет несоответствующий video_id: ожидается '" ++ vid ++
           pyS "', получено '" ++ pyStrOf w ++ pyS "'"))
    | other => some (pyS "Снапшот #" ++ nstr (sidx + 1) ++ pyS " видео #" ++ nstr (vidIdx + 1) ++
        pyS " должен быть объектом, а не " ++ typeName other)

/-- The video loop of `_validate_data_structure` (file_analyzer.py:244-298). -/
def validateVideos : Nat → List Json → Bool × Option (List Char)
  | _, [] => (true, none)
  | idx, v :: rest =>
    match v with
    | Json.obj vf =>
      (match lookupJ (pyS "id") vf with
       | none => (false, some (pyS "Видео #" ++ nstr (idx + 1) ++ pyS " не содержит обязательное поле 'id'"))
       | some idv =>
         (match idv with
          | Json.str vid =>
            if uuidMatch vid then
              if (lookupJ (pyS "creator_id") vf).isSome then
                (match lookupJ (pyS "snapshots") vf with
                 | none => validateVideos (idx + 1) rest
                 | some sv =>
                   (match sv with
                    | Json.arr snaps =>
                      (match validateSnaps idx vid 0 snaps with
                       | none => validateVideos (idx + 1) rest
                       | some err => (false, some err))
                    | _ => (false, some (pyS "Поле 'snapshots' видео #" ++ nstr (idx + 1) ++
                        pyS " должно быть массивом"))))
              else (false, some (pyS "Видео #" ++ nstr (idx + 1) ++
                  pyS " не содержит обязательное поле 'creator_id'"))
            else (false, some (pyS "Поле 'id' видео #" ++ nstr (idx + 1) ++
                pyS " не соответствует формату UUID. Ожидается формат: xxxxxxxx-xxxx-xxxx-xxxx-xxxxxxxxxxxx, получено: " ++ vid.take 50))
          | other => (false, some (pyS "Поле 'id' видео #" ++ nstr (idx + 1) ++
              pyS " должно быть строкой, получен " ++ typeName other))))
    | other => (false, some (pyS "Видео #" ++ nstr (idx + 1) ++ pyS " должно быть объектом, а не " ++
        typeName other))

/-- `FileAnalyzer._validate_data_structure` (file_analyzer.py:209-300):
`(is_valid, error_message)`. -/
def validate_data_structure (data : Json) : Bool × Option (List Char) :=
  match data with
  | Json.obj fields =>
    (match lookupJ (pyS "videos") fields with
     | none => (false, some (pyS "Отсутствует ключ 'videos' в корневом объекте данных"))
     | some v =>
       match v with
       | Json.arr videos =>
         if videos.isEmpty then (false, some (pyS "Массив 'videos' пуст"))
         else validateVideos 0 videos
       | _ => (false, some (pyS "Поле 'videos' должно быть массивом")))
  | _ => (false, some (pyS "Данные должны быть объектом (словарем), а не массивом или примитивом"))

/-- The acceptance condition of `_validate_data_structure` as the
specification states it: the root is an object with a non-empty `videos`
array of valid videos.  (Spec-side definition, to be compared with the
code-side `validate_data_structure`.) -/
def specSnapOk (vid : List Char) (s : Json) : Bool :=
  match s with
  | Json.obj sf =>
    (match lookupJ (pyS "video_id") sf with
     | some w => isStrEq w vid
     | none => false) && (lookupJ (pyS "created_at") sf).isSome
  | _ => false

/-- Spec-side: an optional `snapshots` field must be an array of valid
snapshots of the parent video. -/
def specSnapsOk (vf : List (List Char × Json)) (vid : List Char) : Bool :=
  match lookupJ (pyS "snapshots") vf with
  | none => true
  | some (Json.arr ss) => ss.all (specSnapOk vid)
  | some _ => false

/-- Spec-side: a video is an object with a string UUID `id`, a `creator_id`
field, and valid optional snapshots. -/
def specVideoOk (v : Json) : Bool :=
  match v with
  | Json.obj vf =>
    (match lookupJ (pyS "id") vf with
     | some (Json.str vid) =>
       uuidMatch vid && (lookupJ (pyS "creator_id") vf).isSome && specSnapsOk vf vid
     | _ => false)
  | _ => false

/-- Spec-side acceptance condition of document validation. -/
def specValid (data : Json) : Bool :=
  match data with
  | Json.obj fields =>
    (match lookupJ (pyS "videos") fields with
     | some (Json.arr vs) => !vs.isEmpty && vs.all specVideoOk
     | _ => false)
  | _ => false

/-- State machine recognising the image of `pyCollapse`: state 0 = at the
start, 1 = inside or after a word, 2 = just after a separator space.
Accepting means: no leading, trailing or doubled whitespace, and every
whitespace character is a single `' '`. -/
def collA : Nat → List Char → Bool
  | 2, [] => false
  | _, [] => true
  | 0, c :: r => !pyWs c && collA 1 r
  | 1, c :: r => if pyWs c then decide (c = ' ') && collA 2 r else collA 1 r
  | 2, c :: r => !pyWs c && collA 1 r
  | _ + 3, _ => false

/-- Whether a text is in collapsed-whitespace form (a fixed point of
`pyCollapse`). -/
def collapsedB (l : List Char) : Bool := collA 0 l

/-- The `\w+` tokens of a SQL text: maximal runs of letters, digits and
underscores.  Used to state what "contains a keyword as a token" means. -/
def tokensOf (l : List Char) : List (List Char) :=
  runsOf (fun c => c.isAlphanum || c = '_') l

/-! ### Helper lemmas about the string model -/

/-- `containsL` agrees with list-infix. -/
theorem containsL_iff_isInfix (pat l : List Char) : containsL pat l = true ↔ pat <:+: l := by
  induction l with
  | nil =>
    simp [containsL]
  | cons c rest ih =>
    simp [containsL, List.infix_cons_iff, ih, List.isPrefixOf_iff_prefix]

/-- A non-empty whitespace-free infix survives `dropWhile pyWs`. -/
theorem isInfix_dropWhile_pyWs (pat : List Char) (hne : pat ≠ [])
    (hws : pat.all (fun c => !pyWs c) = true) :
    ∀ l : List Char, pat <:+: l → pat <:+: l.dropWhile pyWs := by
  intro l
  induction l with
  | nil => intro h; simpa using h
  | cons c rest ih =>
    intro h
    by_cases hc : pyWs c = true
    · rw [List.dropWhile_cons_of_pos hc]
      rcases List.infix_cons_iff.mp h with hpre | hinf
      · obtain ⟨p0, pt, rfl⟩ : ∃ p0 pt, pat = p0 :: pt := by
          cases pat with
          | nil => exact absurd rfl hne
          | cons a b => exact ⟨a, b, rfl⟩
        obtain ⟨t, ht⟩ := hpre
        have hp0 : p0 = c := by
          have := congrArg (List.head? ·) ht
          simpa using this
        have hnw : (!pyWs p0) = true := List.all_eq_true.mp hws p0 (by simp)
        rw [hp0] at hnw
        simp [hc] at hnw
      · exact ih hinf
    · rw [List.dropWhile_cons_of_neg hc]
      exact h

/-- A non-empty whitespace-free infix survives `pyStrip`. -/
theorem isInfix_pyStrip (pat l : List Char) (hne : pat ≠ [])
    (hws : pat.all (fun c => !pyWs c) = true) (h : pat <:+: l) :
    pat <:+: pyStrip l := by
  have h1 : pat <:+: l.dropWhile pyWs := isInfix_dropWhile_pyWs pat hne hws l h
  have h2 : pat.reverse <:+: (l.dropWhile pyWs).reverse := List.reverse_infix.mpr h1
  have hne' : pat.reverse ≠ [] := by simpa using hne
  have hws' : pat.reverse.all (fun c => !pyWs c) = true := by simpa using hws
  have h3 : pat.reverse <:+: ((l.dropWhile pyWs).reverse).dropWhile pyWs :=
    isInfix_dropWhile_pyWs pat.reverse hne' hws' _ h2
  have h4 : pat.reverse <:+: (pyStrip l).reverse := by
    simpa [pyStrip, dropTrail] using h3
  exact List.reverse_infix.mp h4

/-- `pyStrip l` is an infix of `l`. -/
theorem pyStrip_isInfix (l : List Char) : pyStrip l <:+: l := by
  have h1 : l.dropWhile pyWs <:+ l := List.dropWhile_suffix pyWs
  have h2 : ((l.dropWhile pyWs).reverse.dropWhile pyWs) <:+ (l.dropWhile pyWs).reverse :=
    List.dropWhile_suffix pyWs
  have h3 : dropTrail pyWs (l.dropWhile pyWs) <+: l.dropWhile pyWs := by
    rw [dropTrail]
    have h4 := List.reverse_prefix.mpr h2
    simpa using h4
  exact (h3.isInfix).trans h1.isInfix

/-- Any SQL whose uppercased text contains a denylisted keyword as a
substring is rejected by `_validate_sql`. -/
theorem validate_sql_eq_false_of_kw (s k : List Char) (hk : k ∈ forbiddenKeywords)
    (h : containsL k (s.map pyUpper) = true) : validate_sql s = false := by
  have hprops : ∀ x ∈ forbiddenKeywords, x ≠ [] ∧ x.all (fun c => !pyWs c) = true := by decide
  obtain ⟨hne, hws⟩ := hprops k hk
  have hinf : k <:+: (s.map pyUpper) := (containsL_iff_isInfix _ _).mp h
  have hsu : k <:+: pyStrip (s.map pyUpper) := isInfix_pyStrip k _ hne hws hinf
  have hc : containsL k (pyStrip (s.map pyUpper)) = true := (containsL_iff_isInfix _ _).mpr hsu
  have hany : forbiddenKeywords.any (fun kw => containsL kw (pyStrip (s.map pyUpper))) = true :=
    List.any_eq_true.mpr ⟨k, hk, hc⟩
  simp [validate_sql, hany]

/-- C2: every SQL string containing the column name `created_at` (hence also
`video_created_at`) in any letter case is rejected by `_validate_sql`,
because the denylisted keyword CREATE matches inside CREATED_AT; in
particular the date-filtered query prescribed by the generator's own worked
examples is rejected. -/
theorem c2_created_at_rejected :
    (∀ s : List Char, containsL (pyS "CREATED_AT") (s.map pyUpper) = true →
      validate_sql s = false) ∧
    validate_sql (pyS "SELECT SUM(delta_views_count) FROM video_snapshots WHERE DATE(created_at) = DATE '2025-11-28'") = false := by
  constructor
  · intro s h
    have hinf : pyS "CREATED_AT" <:+: s.map pyUpper := (containsL_iff_isInfix _ _).mp h
    have hsub : pyS "CREATE" <:+: pyS "CREATED_AT" :=
      (containsL_iff_isInfix _ _).mp (by rfl)
    exact validate_sql_eq_false_of_kw s (pyS "CREATE") (by decide)
      ((containsL_iff_isInfix _ _).mpr (hsub.trans hinf))
  · rfl

/-- C2 witness: a concrete query mentioning `created_at` is rejected. -/
theorem c2_created_at_rejected_witness :
    validate_sql (pyS "SELECT COUNT(*) FROM videos WHERE created_at > '2024-01-01'") = false :=
  c2_created_at_rejected.1 _ (by rfl)

/-- C6: `_validate_sql` rejects every string whose uppercased form contains a
denylisted keyword anywhere, and every string that does not start with
SELECT after uppercasing and stripping. -/
theorem c6_denylist_and_select_gate :
    (∀ s k : List Char, k ∈ forbiddenKeywords → containsL k (s.map pyUpper) = true →
      validate_sql s = false) ∧
    (∀ s : List Char, (pyS "SELECT").isPrefixOf (pyStrip (s.map pyUpper)) = false →
      validate_sql s = false) := by
  constructor
  · intro s k hk h
    exact validate_sql_eq_false_of_kw s k hk h
  · intro s h
    simp only [validate_sql]
    split
    · rfl
    · exact h

/-- C6 witness: a denylisted statement and a non-SELECT statement are both
rejected. -/
theorem c6_denylist_and_select_gate_witness :
    validate_sql (pyS "DROP TABLE videos") = false ∧
    validate_sql (pyS "COMMIT") = false :=
  ⟨c6_denylist_and_select_gate.1 _ (pyS "DROP") (by decide) (by rfl),
   c6_denylist_and_select_gate.2 _ (by rfl)⟩

/-- C5 counterexample: a SELECT statement over the schema's own tables that
contains no denylisted keyword as a token (`\w+` run) is nevertheless
rejected, because the denylist check is a substring check and CREATE occurs
inside the column name VIDEO_CREATED_AT. -/
theorem c5_counterexample_token_free_select_rejected :
    ((pyS "SELECT").isPrefixOf
      (pyStrip ((pyS "SELECT COUNT(*) FROM videos WHERE DATE(video_created_at) = DATE '2025-11-15'").map pyUpper)) = true) ∧
    (forbiddenKeywords.all (fun k =>
      !((tokensOf ((pyS "SELECT COUNT(*) FROM videos WHERE DATE(video_created_at) = DATE '2025-11-15'").map pyUpper)).contains k)) = true) ∧
    validate_sql (pyS "SELECT COUNT(*) FROM videos WHERE DATE(video_created_at) = DATE '2025-11-15'") = false := by
  refine ⟨by rfl, by decide, by rfl⟩

/-- C5 (amended): every statement whose uppercased, stripped text starts
with SELECT and whose uppercased text contains no denylisted keyword as a
substring is accepted by `_validate_sql`. -/
theorem c5_substring_free_select_accepted (s : List Char)
    (hsel : (pyS "SELECT").isPrefixOf (pyStrip (s.map pyUpper)) = true)
    (hkw : ∀ k ∈ forbiddenKeywords, containsL k (s.map pyUpper) = false) :
    validate_sql s = true := by
  have hany : forbiddenKeywords.any (fun kw => containsL kw (pyStrip (s.map pyUpper))) = false := by
    rw [List.any_eq_false]
    intro k hk hc
    have hinf : k <:+: pyStrip (s.map pyUpper) := (containsL_iff_isInfix _ _).mp hc
    have hall : containsL k (s.map pyUpper) = true :=
      (containsL_iff_isInfix _ _).mpr (hinf.trans (pyStrip_isInfix _))
    rw [hkw k hk] at hall
    exact Bool.noConfusion hall
  simp [validate_sql, hany, hsel]

/-- C5 witness: a clean aggregate over `videos` passes validation. -/
theorem c5_substring_free_select_accepted_witness :
    validate_sql (pyS "SELECT COUNT(*) FROM videos") = true :=
  c5_substring_free_select_accepted _ (by rfl) (by decide)

/-- C1 (code bug): a model reply that is exactly one well-formed SELECT
statement fails `generate_sql` instead of being returned.  The preamble
list of query_generator.py:291-295 contains the words `SELECT`/`select`
themselves, so the statement's own keyword is stripped and the remainder
contains no SELECT, which raises "Ответ не содержит SQL запрос".  This
contradicts the code's own comment (the entry is annotated "in case there
is text before SELECT") and the prompt's instruction to reply with exactly
such a statement. -/
theorem c1_plain_select_reply_raises :
    generate_sql_post (pyS "SELECT COUNT(*) FROM videos;") =
      Except.error (pyS "Ошибка при обращении к GigaChat API: Ответ не содержит SQL запрос. Получено: COUNT(*) FROM videos;...") ∧
    generate_sql_post (pyS "select count(*) from videos;") =
      Except.error (pyS "Ошибка при обращении к GigaChat API: Ответ не содержит SQL запрос. Получено: count(*) from videos;...") := by
  exact ⟨rfl, rfl⟩

/-- C4 (code bug): `re.sub(r'(\d+)\s+(\d+)', r'\1\2', ...)` is
non-overlapping, so of a run of three digit groups only the first two are
merged: "1 000 000" becomes "1000 000", not "1000000", although the code's
own comment promises to handle "1 000 000".  Two-group runs are merged as
claimed, and groups adjacent to letters are merged as well, corrupting
identifiers. -/
theorem c4_digit_merge_partial :
    normalize_query (pyS "Сколько видео набрало больше 1 000 000 просмотров?") =
      pyS "Сколько видео набрало больше 1000 000 просмотров?" ∧
    normalize_query (pyS "Сколько видео набрало больше 100 000 просмотров?") =
      pyS "Сколько видео набрало больше 100000 просмотров?" ∧
    normalize_query (pyS "Сколько видео у креатора a1 2b?") =
      pyS "Сколько видео у креатора a12b?" := by
  exact ⟨rfl, rfl, rfl⟩


/-- C7 counterexample: the claim says every value other than None, int,
float or a parseable string coerces to 0.0, but the code first tries
`float(value)` on such values, so a convertible value of another type
(e.g. `decimal.Decimal('1.5')`, the type asyncpg actually returns for SUM)
coerces to its numeric value, not 0.0. -/
theorem c7_counterexample_other_convertible_value :
    coerce_scalar (PyScalar.pother (some ((3 : ℚ) / 2))) = (3 : ℚ) / 2 ∧
    ((3 : ℚ) / 2) ≠ 0 := by
  constructor
  · rfl
  · norm_num

/-- C7 (amended): the scalar coercion of `_execute_query` is total and
never raises: None coerces to 0; ints and floats to their value; a string
parseable as a float to that float and any other string to 0; a value of
any other type to `float(value)` when that conversion succeeds and to 0
when it raises. -/
theorem c7_coercion_total :
    coerce_scalar PyScalar.pnull = 0 ∧
    (∀ n : Int, coerce_scalar (PyScalar.pint n) = (n : ℚ)) ∧
    (∀ q : ℚ, coerce_scalar (PyScalar.pfloat q) = q) ∧
    (∀ s : List Char, ∀ q : ℚ, pyFloatOfString s = some q →
      coerce_scalar (PyScalar.pstr s) = q) ∧
    (∀ s : List Char, pyFloatOfString s = none → coerce_scalar (PyScalar.pstr s) = 0) ∧
    (∀ q : ℚ, coerce_scalar (PyScalar.pother (some q)) = q) ∧
    coerce_scalar (PyScalar.pother none) = 0 := by
  refine ⟨rfl, fun n => rfl, fun q => rfl, fun s q h => ?_, fun s h => ?_, fun q => rfl, rfl⟩
  · simp [coerce_scalar, h]
  · simp [coerce_scalar, h]

/-- C7 witness: the string cases at concrete inputs. -/
theorem c7_coercion_total_witness :
    coerce_scalar (PyScalar.pstr (pyS "12.5")) = (25 : ℚ) / 2 ∧
    coerce_scalar (PyScalar.pstr (pyS "нет данных")) = 0 := by
  constructor
  · refine c7_coercion_total.2.2.2.1 _ ((25 : ℚ) / 2) ?_
    rw [show ((25 : ℚ) / 2) = Rat.divInt 125 10 from by rw [Rat.divInt_eq_div]; norm_num]
    rfl
  · exact c7_coercion_total.2.2.2.2.1 _ (by rfl)

/-- C8: `_format_number` maps None to "0" and any (finite) numeric value to
the decimal rendering of its truncation toward zero, with no thousands
separators and no decimal point; in particular 42.9 formats as "42". -/
theorem c8_format_number_truncates :
    format_number FmtVal.fnone = pyS "0" ∧
    (∀ q : ℚ, format_number (FmtVal.fnum q) = (toString (pyIntTrunc q)).data) ∧
    format_number (FmtVal.fnum ((429 : ℚ) / 10)) = pyS "42" := by
  refine ⟨rfl, fun q => ?_, ?_⟩
  · simp [format_number, fmtNum]
  · rw [show ((429 : ℚ) / 10) = Rat.divInt 429 10 from by rw [Rat.divInt_eq_div]; norm_num]
    rfl


/-- Unfolding equation for `collA` at state 0. -/
theorem collA_zero_cons (c : Char) (r : List Char) :
    collA 0 (c :: r) = (!pyWs c && collA 1 r) := rfl

/-- Unfolding equation for `collA` at state 1. -/
theorem collA_one_cons (c : Char) (r : List Char) :
    collA 1 (c :: r) = (if pyWs c then decide (c = ' ') && collA 2 r else collA 1 r) := rfl

/-- Unfolding equation for `collA` at state 2. -/
theorem collA_two_cons (c : Char) (r : List Char) :
    collA 2 (c :: r) = (!pyWs c && collA 1 r) := rfl

/-- Unfolding equation for `collapseGo` on a cons cell. -/
theorem collapseGo_cons (st pend : Bool) (c : Char) (rest : List Char) :
    collapseGo st pend (c :: rest) =
      if pyWs c then collapseGo st true rest
      else (if st && pend then [' ', c] else [c]) ++ collapseGo true false rest := rfl

/-- The output of the whitespace collapser is in collapsed form. -/
theorem collapseGo_collA (l : List Char) :
    (∀ p : Bool, collA 0 (collapseGo false p l) = true) ∧
    (∀ p : Bool, collA 1 (collapseGo true p l) = true) := by
  induction l with
  | nil => exact ⟨fun _ => rfl, fun _ => rfl⟩
  | cons c rest ih =>
    cases hc : pyWs c with
    | true =>
      refine ⟨fun p => ?_, fun p => ?_⟩
      · rw [collapseGo_cons, if_pos hc]
        exact ih.1 true
      · rw [collapseGo_cons, if_pos hc]
        exact ih.2 true
    | false =>
      refine ⟨fun p => ?_, fun p => ?_⟩
      · rw [collapseGo_cons, if_neg (by simp [hc])]
        show collA 0 (c :: collapseGo true false rest) = true
        rw [collA_zero_cons, hc]
        simpa using ih.2 false
      · rw [collapseGo_cons, if_neg (by simp [hc])]
        cases p with
        | true =>
          show collA 1 (' ' :: c :: collapseGo true false rest) = true
          rw [collA_one_cons]
          have hsp : pyWs ' ' = true := by decide
          rw [if_pos hsp]
          simp only [decide_eq_true_eq, Bool.true_and]
          rw [collA_two_cons, hc]
          simpa using ih.2 false
        | false =>
          show collA 1 (c :: collapseGo true false rest) = true
          rw [collA_one_cons, if_neg (by simp [hc])]
          exact ih.2 false

/-- A text in collapsed form is a fixed point of the collapser. -/
theorem collA_fixed (l : List Char) :
    (collA 0 l = true → ∀ p : Bool, collapseGo false p l = l) ∧
    (collA 1 l = true → collapseGo true false l = l) ∧
    (collA 2 l = true → collapseGo true true l = ' ' :: l) := by
  induction l with
  | nil =>
    refine ⟨fun _ _ => rfl, fun _ => rfl, fun h => ?_⟩
    exact absurd h (by decide)
  | cons c rest ih =>
    refine ⟨fun h p => ?_, fun h => ?_, fun h => ?_⟩
    · rw [collA_zero_cons, Bool.and_eq_true] at h
      have hc : pyWs c = false := by simpa using h.1
      rw [collapseGo_cons, if_neg (by simp [hc])]
      show c :: collapseGo true false rest = c :: rest
      rw [ih.2.1 h.2]
    · cases hc : pyWs c with
      | true =>
        rw [collA_one_cons, if_pos hc, Bool.and_eq_true, decide_eq_true_eq] at h
        rw [collapseGo_cons, if_pos hc, ih.2.2 h.2, ← h.1]
      | false =>
        rw [collA_one_cons, if_neg (by simp [hc])] at h
        rw [collapseGo_cons, if_neg (by simp [hc])]
        show c :: collapseGo true false rest = c :: rest
        rw [ih.2.1 h]
    · rw [collA_two_cons, Bool.and_eq_true] at h
      have hc : pyWs c = false := by simpa using h.1
      rw [collapseGo_cons, if_neg (by simp [hc])]
      show ' ' :: c :: collapseGo true false rest = ' ' :: c :: rest
      rw [ih.2.1 h.2]

/-- In collapsed form (any machine state) the last character is not
whitespace. -/
theorem collA_getLast_not_ws (l : List Char) :
    ∀ s : Nat, collA s l = true → ∀ c : Char, l.getLast? = some c → pyWs c = false := by
  induction l with
  | nil => intro s _ c hc; simp at hc
  | cons a rest ih =>
    intro s hs c hc
    cases rest with
    | nil =>
      have hac : a = c := by simpa using hc
      subst hac
      match s, hs with
      | 0, hs =>
        rw [collA_zero_cons, Bool.and_eq_true] at hs
        simpa using hs.1
      | 1, hs =>
        cases hw : pyWs a with
        | false => rfl
        | true =>
          rw [collA_one_cons, if_pos hw] at hs
          have : collA 2 ([] : List Char) = true := (Bool.and_eq_true .. ▸ hs).2
          exact absurd this (by decide)
      | 2, hs =>
        rw [collA_two_cons, Bool.and_eq_true] at hs
        simpa using hs.1
    | cons b rest' =>
      have hc' : (b :: rest').getLast? = some c := by simpa using hc
      match s, hs with
      | 0, hs =>
        rw [collA_zero_cons, Bool.and_eq_true] at hs
        exact ih 1 hs.2 c hc'
      | 1, hs =>
        cases hw : pyWs a with
        | true =>
          rw [collA_one_cons, if_pos hw, Bool.and_eq_true] at hs
          exact ih 2 hs.2 c hc'
        | false =>
          rw [collA_one_cons, if_neg (by simp [hw])] at hs
          exact ih 1 hs c hc'
      | 2, hs =>
        rw [collA_two_cons, Bool.and_eq_true] at hs
        exact ih 1 hs.2 c hc'

/-- A text in collapsed form is a fixed point of `pyStrip`. -/
theorem collapsed_pyStrip_id (l : List Char) (h : collapsedB l = true) : pyStrip l = l := by
  cases l with
  | nil => rfl
  | cons c rest =>
    have h0 : collA 0 (c :: rest) = true := h
    rw [collA_zero_cons, Bool.and_eq_true] at h0
    have hc : pyWs c = false := by simpa using h0.1
    have hlead : (c :: rest).dropWhile pyWs = c :: rest :=
      List.dropWhile_cons_of_neg (by simp [hc])
    obtain ⟨d, hd⟩ : ∃ d, (c :: rest).getLast? = some d := by
      cases hgl : (c :: rest).getLast? with
      | none => simp [List.getLast?_eq_none_iff] at hgl
      | some d => exact ⟨d, rfl⟩
    have hwd : pyWs d = false := collA_getLast_not_ws (c :: rest) 0 h d hd
    rw [pyStrip, hlead, dropTrail]
    cases hrev : (c :: rest).reverse with
    | nil =>
      have := congrArg List.length hrev
      simp at this
    | cons e t =>
      have he : e = d := by
        have h1 : (c :: rest).reverse.head? = some d := by rw [List.head?_reverse]; exact hd
        rw [hrev] at h1
        simpa using h1
      rw [List.dropWhile_cons_of_neg (by simp [he, hwd]), ← hrev, List.reverse_reverse]

/-- Unfolding equation for `hasDWD` on a cons cell. -/
theorem hasDWD_cons (c : Char) (rest : List Char) :
    hasDWD (c :: rest) =
      ((c.isDigit &&
        (!(List.takeWhile pyWs (List.dropWhile Char.isDigit rest)).isEmpty &&
          (match List.dropWhile pyWs (List.dropWhile Char.isDigit rest) with
           | d :: _ => d.isDigit
           | [] => false))) || hasDWD rest) := rfl

/-- A text with no digit-whitespace-digit pattern is a fixed point of the
digit-group merge, for any fuel. -/
theorem mergeDigitsF_id : ∀ (n : Nat) (l : List Char), hasDWD l = false → mergeDigitsF n l = l := by
  intro n
  induction n with
  | zero => intro l _; rfl
  | succ n ih =>
    intro l h
    cases l with
    | nil => rfl
    | cons c rest =>
      rw [hasDWD_cons] at h
      obtain ⟨h1, hrest⟩ := Bool.or_eq_false_iff.mp h
      cases hc : c.isDigit with
      | false =>
        simp only [mergeDigitsF, hc]
        show c :: mergeDigitsF n rest = c :: rest
        rw [ih rest hrest]
      | true =>
        rw [hc, Bool.true_and] at h1
        simp only [mergeDigitsF, hc]
        show (if (!(List.takeWhile pyWs (List.dropWhile Char.isDigit rest)).isEmpty &&
              (match List.dropWhile pyWs (List.dropWhile Char.isDigit rest) with
               | d :: _ => d.isDigit
               | [] => false)) = true then
            (c :: rest.takeWhile Char.isDigit) ++
              (List.dropWhile pyWs (List.dropWhile Char.isDigit rest)).takeWhile Char.isDigit ++
              mergeDigitsF n ((List.dropWhile pyWs (List.dropWhile Char.isDigit rest)).dropWhile Char.isDigit)
          else c :: mergeDigitsF n rest) = c :: rest
        rw [if_neg (by rw [h1]; exact Bool.false_ne_true)]
        rw [ih rest hrest]

/-- The synonym loop leaves a text unchanged when no table key occurs in its
lowercased form. -/
theorem applySyn_id : ∀ (tbl : List (List Char × List Char)) (q : List Char),
    (∀ p ∈ tbl, containsL p.1 (q.map pyLower) = false) → applySyn tbl q = q := by
  intro tbl
  induction tbl with
  | nil => intro q _; rfl
  | cons hd tl ih =>
    intro q h
    obtain ⟨old, nw⟩ := hd
    have h1 : containsL old (q.map pyLower) = false := h (old, nw) (by simp)
    simp only [applySyn, h1]
    show (if False then applySyn tl (pyReplace q old nw) else applySyn tl q) = q
    rw [if_neg (fun hf => hf)]
    exact ih q (fun p hp => h p (by simp [hp]))

/-- C3 counterexample: a lowercase question with no spaced digit groups on
which the normalizer is not idempotent.  "какая сумма" is replaced by
"сколько всего", which is itself a key of the synonym table, so a second
normalization rewrites the text again. -/
theorem c3_counterexample_not_idempotent :
    hasDWD (pyS "какая сумма всех лайков?") = false ∧
    normalize_query (normalize_query (pyS "какая сумма всех лайков?")) ≠
      normalize_query (pyS "какая сумма всех лайков?") := by
  exact ⟨rfl, by decide⟩

/-- C3 (amended): the normalizer is idempotent on every question whose
collapsed-whitespace form contains no digit groups separated by whitespace
and no synonym-table key in its lowercased form (the extra key condition is
forced by the counterexample: a replacement may reintroduce a key). -/
theorem c3_normalize_idempotent (q : List Char)
    (hd : hasDWD (pyCollapse q) = false)
    (hk : ∀ p ∈ synTable, containsL p.1 ((pyCollapse q).map pyLower) = false) :
    normalize_query (normalize_query q) = normalize_query q := by
  have hcol : collapsedB (pyCollapse q) = true := (collapseGo_collA q).1 false
  have hfix : pyCollapse (pyCollapse q) = pyCollapse q := (collA_fixed (pyCollapse q)).1 hcol false
  have hN : normalize_query q = pyCollapse q := by
    rw [normalize_query, mergeDigits, mergeDigitsF_id _ _ hd, applySyn_id _ _ hk,
      collapsed_pyStrip_id _ hcol]
  rw [hN, normalize_query, hfix, mergeDigits, mergeDigitsF_id _ _ hd, applySyn_id _ _ hk,
    collapsed_pyStrip_id _ hcol]

/-- C3 witness: idempotence at a concrete key-free question. -/
theorem c3_normalize_idempotent_witness :
    normalize_query (normalize_query (pyS "сколько видео в системе?")) =
      normalize_query (pyS "сколько видео в системе?") :=
  c3_normalize_idempotent _ (by rfl) (by decide)

/-- A digit is not whitespace. -/
theorem isDigit_not_pyWs (c : Char) (h : c.isDigit = true) : pyWs c = false := by
  cases hw : pyWs c with
  | false => rfl
  | true =>
    simp only [pyWs, Bool.or_eq_true, decide_eq_true_eq] at hw
    rcases hw with ((((h1 | h1) | h1) | h1) | h1) | h1 <;> subst h1 <;> exact absurd h (by decide)

/-- Unfolding equation for `runsAux` on nil. -/
theorem runsAux_nil_eq (p : Char → Bool) (acc : List Char) :
    runsAux p acc [] = if acc.isEmpty then [] else [acc.reverse] := rfl

/-- Unfolding equation for `runsAux` on a cons cell. -/
theorem runsAux_cons_eq (p : Char → Bool) (acc : List Char) (c : Char) (rest : List Char) :
    runsAux p acc (c :: rest) =
      if p c then runsAux p (c :: acc) rest
      else if acc.isEmpty then runsAux p [] rest
      else acc.reverse :: runsAux p [] rest := rfl

/-- Every run found by `runsAux` consists of characters satisfying the
class predicate. -/
theorem runsAux_all (p : Char → Bool) :
    ∀ (l acc : List Char), acc.all p = true → ∀ m ∈ runsAux p acc l, m.all p = true := by
  intro l
  induction l with
  | nil =>
    intro acc hacc m hm
    rw [runsAux_nil_eq] at hm
    cases hae : acc.isEmpty with
    | true => rw [hae] at hm; simp at hm
    | false =>
      rw [hae] at hm
      simp only [Bool.false_eq_true, if_false] at hm
      have : m = acc.reverse := by simpa using hm
      subst this
      simpa using hacc
  | cons c rest ih =>
    intro acc hacc m hm
    rw [runsAux_cons_eq] at hm
    cases hp : p c with
    | true =>
      rw [hp, if_pos rfl] at hm
      exact ih (c :: acc) (by simp [hacc, hp]) m hm
    | false =>
      rw [hp] at hm
      simp only [Bool.false_eq_true, if_false] at hm
      cases hae : acc.isEmpty with
      | true =>
        rw [hae, if_pos rfl] at hm
        exact ih [] rfl m hm
      | false =>
        rw [hae] at hm
        simp only [Bool.false_eq_true, if_false, List.mem_cons] at hm
        rcases hm with rfl | hm
        · simpa using hacc
        · exact ih [] rfl m hm

/-- If every run of `runsAux` is free of `d`-characters, so are the
accumulator and the remaining input (for `d` implying the class `p`). -/
theorem runsAux_countP_zero (p d : Char → Bool) (hpd : ∀ c, d c = true → p c = true) :
    ∀ (l acc : List Char), (∀ m ∈ runsAux p acc l, List.countP d m = 0) →
      List.countP d acc = 0 ∧ List.countP d l = 0 := by
  intro l
  induction l with
  | nil =>
    intro acc h
    rw [runsAux_nil_eq] at h
    cases hae : acc.isEmpty with
    | true =>
      have : acc = [] := by simpa using hae
      subst this
      exact ⟨rfl, rfl⟩
    | false =>
      rw [hae] at h
      simp only [Bool.false_eq_true, if_false, List.mem_singleton, forall_eq] at h
      rw [List.countP_reverse] at h
      exact ⟨h, rfl⟩
  | cons c rest ih =>
    intro acc h
    rw [runsAux_cons_eq] at h
    cases hp : p c with
    | true =>
      rw [hp, if_pos rfl] at h
      obtain ⟨hca, hr⟩ := ih (c :: acc) h
      rw [List.countP_cons] at hca
      have hdc : (if d c = true then 1 else 0) = 0 ∧ List.countP d acc = 0 := by
        constructor <;> omega
      rw [List.countP_cons, hr]
      refine ⟨hdc.2, ?_⟩
      omega
    | false =>
      have hdc : d c = false := by
        cases hd : d c with
        | false => rfl
        | true => rw [hpd c hd] at hp; exact absurd hp (by simp)
      rw [hp] at h
      simp only [Bool.false_eq_true, if_false] at h
      cases hae : acc.isEmpty with
      | true =>
        rw [hae, if_pos rfl] at h
        obtain ⟨_, hr⟩ := ih [] h
        have hacc : acc = [] := by simpa using hae
        subst hacc
        refine ⟨rfl, ?_⟩
        rw [List.countP_cons, hr, hdc]
        simp
      | false =>
        rw [hae] at h
        simp only [Bool.false_eq_true, if_false, List.mem_cons] at h
        have hhead := h acc.reverse (Or.inl rfl)
        rw [List.countP_reverse] at hhead
        obtain ⟨_, hr⟩ := ih [] (fun m hm => h m (Or.inr hm))
        refine ⟨hhead, ?_⟩
        rw [List.countP_cons, hr, hdc]
        simp

/-- `maxByKey` returns an element of the candidate list. -/
theorem maxByKey_mem : ∀ (ms : List (List Char)) (m : List Char), maxByKey m ms ∈ m :: ms := by
  intro ms
  induction ms with
  | nil => intro m; simp [maxByKey]
  | cons x xs ih =>
    intro m
    show maxByKey (if digitKey x > digitKey m then x else m) xs ∈ m :: x :: xs
    by_cases hgt : digitKey x > digitKey m
    · rw [if_pos hgt]
      rcases List.mem_cons.mp (ih x) with h | h
      · rw [h]; simp
      · simp [h]
    · rw [if_neg hgt]
      rcases List.mem_cons.mp (ih m) with h | h
      · rw [h]; simp
      · simp [h]

/-- `maxByKey` dominates every candidate in the key. -/
theorem maxByKey_ge : ∀ (ms : List (List Char)) (m : List Char),
    ∀ x ∈ m :: ms, digitKey x ≤ digitKey (maxByKey m ms) := by
  intro ms
  induction ms with
  | nil =>
    intro m x hx
    have : x = m := by simpa using hx
    subst this
    exact Nat.le_refl _
  | cons y ys ih =>
    intro m x hx
    have heq : maxByKey m (y :: ys) = maxByKey (if digitKey y > digitKey m then y else m) ys := rfl
    rw [heq]
    have hm' : digitKey m ≤ digitKey (if digitKey y > digitKey m then y else m) := by
      by_cases hgt : digitKey y > digitKey m
      · rw [if_pos hgt]; omega
      · rw [if_neg hgt]
    have hy' : digitKey y ≤ digitKey (if digitKey y > digitKey m then y else m) := by
      by_cases hgt : digitKey y > digitKey m
      · rw [if_pos hgt]
      · rw [if_neg hgt]; omega
    rcases List.mem_cons.mp hx with rfl | hx'
    · exact le_trans hm' (ih _ _ (by simp))
    · rcases List.mem_cons.mp hx' with rfl | hx''
      · exact le_trans hy' (ih _ _ (by simp))
      · exact ih _ x (by simp [hx''])

/-- On a run of digit-or-whitespace characters, the sort key of
file_analyzer.py:542 counts exactly the digits. -/
theorem digitKey_eq_countP (m : List Char)
    (hall : m.all (fun c => c.isDigit || pyWs c) = true) :
    digitKey m = m.countP (fun c => c.isDigit) := by
  rw [digitKey, ← List.countP_eq_length_filter]
  refine List.countP_congr (fun c hc => ?_)
  have hcl := List.all_eq_true.mp hall c hc
  simp only [Bool.or_eq_true] at hcl
  constructor
  · intro hnw
    rcases hcl with hd | hw
    · exact hd
    · simp [hw] at hnw
  · intro hd
    simp [isDigit_not_pyWs c hd]

/-- A list with no digits is fully consumed by the leading `dropWhile` of
the decimal search. -/
theorem dropWhile_nonDigit_eq_nil (t : List Char)
    (h : t.countP (fun c => c.isDigit) = 0) :
    t.dropWhile (fun c => !c.isDigit) = [] := by
  induction t with
  | nil => rfl
  | cons c rest ih =>
    rw [List.countP_cons] at h
    have hd : c.isDigit = false := by
      cases hdc : c.isDigit with
      | false => rfl
      | true => rw [hdc] at h; simp at h
    have hr : rest.countP (fun c => c.isDigit) = 0 := by omega
    rw [List.dropWhile_cons_of_pos (by simp [hd])]
    exact ih hr

/-- The decimal fallback finds nothing in a digit-free text. -/
theorem firstDecimal_eq_none (t : List Char)
    (h : t.countP (fun c => c.isDigit) = 0) : firstDecimal t = none := by
  rw [firstDecimal, dropWhile_nonDigit_eq_nil t h]

/-- The body of `_extract_number` always yields a non-empty digit string. -/
theorem extract_core_spec (u : List Char) :
    extract_core u ≠ [] ∧ (extract_core u).all Char.isDigit = true := by
  cases hrs : runsOf (fun c => c.isDigit || pyWs c) u with
  | nil =>
    have hcnt : u.countP (fun c => c.isDigit) = 0 := by
      have := runsAux_countP_zero (fun c => c.isDigit || pyWs c) (fun c => c.isDigit)
        (fun c hc => by simp [hc]) u []
      refine (this ?_).2
      intro m hm
      rw [show runsAux (fun c => c.isDigit || pyWs c) [] u =
        runsOf (fun c => c.isDigit || pyWs c) u from rfl, hrs] at hm
      simp at hm
    have : extract_core u = extract_fallback u := by
      rw [extract_core, hrs]
    rw [this, extract_fallback, firstDecimal_eq_none u hcnt]
    exact ⟨by simp [pyS], by decide⟩
  | cons m ms =>
    have hruns : ∀ x ∈ m :: ms, x.all (fun c => c.isDigit || pyWs c) = true := by
      intro x hx
      refine runsAux_all _ u [] rfl x ?_
      rw [show runsAux (fun c => c.isDigit || pyWs c) [] u =
        runsOf (fun c => c.isDigit || pyWs c) u from rfl, hrs]
      exact hx
    have hLall := hruns (maxByKey m ms) (maxByKey_mem ms m)
    have hNall : ((maxByKey m ms).filter (fun c => !pyWs c)).all Char.isDigit = true := by
      rw [List.all_eq_true]
      intro c hc
      rw [List.mem_filter] at hc
      have := List.all_eq_true.mp hLall c hc.1
      simp only [Bool.or_eq_true] at this
      rcases this with hd | hw
      · exact hd
      · exact absurd hw (by simpa using hc.2)
    have hcore : extract_core u =
        (if !((maxByKey m ms).filter (fun c => !pyWs c)).isEmpty &&
            ((maxByKey m ms).filter (fun c => !pyWs c)).all Char.isDigit then
          (maxByKey m ms).filter (fun c => !pyWs c)
        else extract_fallback u) := by
      rw [extract_core, hrs]
    cases hne : ((maxByKey m ms).filter (fun c => !pyWs c)).isEmpty with
    | false =>
      rw [hcore, hne, hNall]
      simp only [Bool.not_false, Bool.and_true, if_true]
      exact ⟨by simpa using hne, hNall⟩
    | true =>
      have hN0 : ((maxByKey m ms).filter (fun c => !pyWs c)).length = 0 := by
        simp [List.isEmpty_iff.mp hne]
      have hL0 : digitKey (maxByKey m ms) = 0 := by
        rw [digitKey]; exact hN0
      have hall0 : ∀ x ∈ m :: ms, x.countP (fun c => c.isDigit) = 0 := by
        intro x hx
        have h1 := maxByKey_ge ms m x hx
        rw [hL0, Nat.le_zero] at h1
        rw [← digitKey_eq_countP x (hruns x hx)]
        exact h1
      have hcnt : u.countP (fun c => c.isDigit) = 0 := by
        have := runsAux_countP_zero (fun c => c.isDigit || pyWs c) (fun c => c.isDigit)
          (fun c hc => by simp [hc]) u []
        refine (this ?_).2
        intro x hx
        refine hall0 x ?_
        rw [show runsAux (fun c => c.isDigit || pyWs c) [] u =
          runsOf (fun c => c.isDigit || pyWs c) u from rfl, hrs] at hx
        exact hx
      rw [hcore, hne]
      simp only [Bool.not_true, Bool.false_and, Bool.false_eq_true, if_false]
      rw [extract_fallback, firstDecimal_eq_none u hcnt]
      exact ⟨by simp [pyS], by decide⟩

/-- C9: `_extract_number` always returns a non-empty string of decimal
digits (never raising): it keeps the digit-and-space run with the most
digits when one exists and falls back to "0" otherwise; in particular it
extracts "3326609" from the sample answer and "0" from a digit-free text. -/
theorem c9_extract_number_digits :
    (∀ t : List Char, extract_number t ≠ [] ∧ (extract_number t).all Char.isDigit = true) ∧
    extract_number (pyS "Ответ: 3 326 609 просмотров") = pyS "3326609" ∧
    extract_number (pyS "нет данных") = pyS "0" := by
  refine ⟨fun t => ?_, by rfl, by rfl⟩
  rw [extract_number]
  exact extract_core_spec (cleanForExtract t)

set_option synthInstance.maxHeartbeats 400000 in
/-- The snapshot loop succeeds exactly when every snapshot satisfies the
specification's snapshot condition. -/
theorem validateSnaps_none_iff : ∀ (ss : List Json) (vi : Nat) (vid : List Char) (si : Nat),
    validateSnaps vi vid si ss = none ↔ ss.all (specSnapOk vid) = true := by
  intro ss
  induction ss with
  | nil => intro vi vid si; simp [validateSnaps]
  | cons s rest ih =>
    intro vi vid si
    cases s with
    | obj sf =>
      cases hlk : lookupJ (pyS "video_id") sf with
      | none => simp [validateSnaps, hlk, specSnapOk]
      | some w =>
        cases hie : isStrEq w vid with
        | false => simp [validateSnaps, hlk, hie, specSnapOk]
        | true =>
          cases hca : (lookupJ (pyS "created_at") sf).isSome with
          | false => simp [validateSnaps, hlk, hie, hca, specSnapOk]
          | true => simp [validateSnaps, hlk, hie, hca, specSnapOk, ih vi vid (si + 1)]
    | null => simp [validateSnaps, specSnapOk]
    | bool b => simp [validateSnaps, specSnapOk]
    | num q => simp [validateSnaps, specSnapOk]
    | str t => simp [validateSnaps, specSnapOk]
    | arr es => simp [validateSnaps, specSnapOk]

/-- The video loop accepts exactly the lists in which every video satisfies
the specification's video condition. -/
theorem validateVideos_fst_eq : ∀ (vs : List Json) (idx : Nat),
    (validateVideos idx vs).1 = vs.all specVideoOk := by
  intro vs
  induction vs with
  | nil => intro idx; simp [validateVideos]
  | cons v rest ih =>
    intro idx
    cases v with
    | obj vf =>
      cases hid : lookupJ (pyS "id") vf with
      | none => simp [validateVideos, hid, specVideoOk]
      | some idv =>
        cases idv with
        | str vid =>
          cases huu : uuidMatch vid with
          | false => simp [validateVideos, hid, huu, specVideoOk]
          | true =>
            cases hcr : (lookupJ (pyS "creator_id") vf).isSome with
            | false => simp [validateVideos, hid, huu, hcr, specVideoOk]
            | true =>
              cases hsn : lookupJ (pyS "snapshots") vf with
              | none =>
                simp [validateVideos, hid, huu, hcr, hsn, specVideoOk, specSnapsOk, ih (idx + 1)]
              | some sv =>
                cases sv with
                | arr snaps =>
                  cases hvs : validateSnaps idx vid 0 snaps with
                  | none =>
                    have hall := (validateSnaps_none_iff snaps idx vid 0).mp hvs
                    simp [validateVideos, hid, huu, hcr, hsn, hvs, specVideoOk, specSnapsOk,
                      hall, ih (idx + 1)]
                  | some err =>
                    have hall : snaps.all (specSnapOk vid) = false := by
                      cases h : snaps.all (specSnapOk vid) with
                      | false => rfl
                      | true =>
                        have := (validateSnaps_none_iff snaps idx vid 0).mpr h
                        rw [hvs] at this
                        exact absurd this (by simp)
                    simp [validateVideos, hid, huu, hcr, hsn, hvs, specVideoOk, specSnapsOk, hall]
                | null => simp [validateVideos, hid, huu, hcr, hsn, specVideoOk, specSnapsOk]
                | bool b => simp [validateVideos, hid, huu, hcr, hsn, specVideoOk, specSnapsOk]
                | num q => simp [validateVideos, hid, huu, hcr, hsn, specVideoOk, specSnapsOk]
                | str t => simp [validateVideos, hid, huu, hcr, hsn, specVideoOk, specSnapsOk]
                | obj o => simp [validateVideos, hid, huu, hcr, hsn, specVideoOk, specSnapsOk]
        | null => simp [validateVideos, hid, specVideoOk]
        | bool b => simp [validateVideos, hid, specVideoOk]
        | num q => simp [validateVideos, hid, specVideoOk]
        | arr es => simp [validateVideos, hid, specVideoOk]
        | obj o => simp [validateVideos, hid, specVideoOk]
    | null => simp [validateVideos, specVideoOk]
    | bool b => simp [validateVideos, specVideoOk]
    | num q => simp [validateVideos, specVideoOk]
    | str t => simp [validateVideos, specVideoOk]
    | arr es => simp [validateVideos, specVideoOk]

/-- C10: `_validate_data_structure` accepts a document exactly when the root
is an object with a non-empty `videos` array whose elements are objects
with a UUID string `id` and a `creator_id` field, and whose optional
`snapshots` arrays contain only objects with a matching `video_id` and a
`created_at` field; and on a violation the error message names the missing
key or the offending indices, as shown on the three scenarios the
specification lists. -/
theorem c10_validate_data_structure_spec :
    (∀ data : Json, (validate_data_structure data).1 = specValid data) ∧
    validate_data_structure (Json.obj [(pyS "other", Json.null)]) =
      (false, some (pyS "Отсутствует ключ 'videos' в корневом объекте данных")) ∧
    validate_data_structure (Json.obj [(pyS "videos", Json.arr
      [Json.obj [(pyS "id", Json.str (pyS "12345678-1234-1234-1234-123456789abc")),
                 (pyS "creator_id", Json.str (pyS "c1"))],
       Json.obj [(pyS "id", Json.str (pyS "not-a-uuid")),
                 (pyS "creator_id", Json.str (pyS "c2"))]])]) =
      (false, some (pyS "Поле 'id' видео #2 не соответствует формату UUID. Ожидается формат: xxxxxxxx-xxxx-xxxx-xxxx-xxxxxxxxxxxx, получено: not-a-uuid")) ∧
    validate_data_structure (Json.obj [(pyS "videos", Json.arr
      [Json.obj [(pyS "id", Json.str (pyS "12345678-1234-1234-1234-123456789abc")),
                 (pyS "creator_id", Json.str (pyS "c1")),
                 (pyS "snapshots", Json.arr
                   [Json.obj [(pyS "video_id", Json.str (pyS "87654321-1234-1234-1234-123456789abc")),
                              (pyS "created_at", Json.str (pyS "2025-11-28T10:00:00"))]])]])]) =
      (false, some (pyS "Снапшот #1 видео #1 имеет несоответствующий video_id: ожидается '12345678-1234-1234-1234-123456789abc', получено '87654321-1234-1234-1234-123456789abc'")) := by
  refine ⟨fun data => ?_, by rfl, by rfl, by rfl⟩
  cases data with
  | obj fields =>
    cases hv : lookupJ (pyS "videos") fields with
    | none => simp [validate_data_structure, hv, specValid]
    | some v =>
      cases v with
      | arr videos =>
        cases he : videos.isEmpty with
        | true => simp [validate_data_structure, hv, he, specValid]
        | false =>
          simp [validate_data_structure, hv, he, specValid, validateVideos_fst_eq videos 0]
      | null => simp [validate_data_structure, hv, specValid]
      | bool b => simp [validate_data_structure, hv, specValid]
      | num q => simp [validate_data_structure, hv, specValid]
      | str t => simp [validate_data_structure, hv, specValid]
      | obj o => simp [validate_data_structure, hv, specValid]
  | null => simp [validate_data_structure, specValid]
  | bool b => simp [validate_data_structure, specValid]
  | num q => simp [validate_data_structure, specValid]
  | str t => simp [validate_data_structure, specValid]
  | arr es => simp [validate_data_structure, specValid]
